import Mathlib

/-!
Shallow embedding of the project-board application (`src/app.ts`):
the project store (`ProjectState`), its listener/notification protocol,
the `validate` input gate, and the `dragover` drop-target handler.

Listener callbacks are modelled opaquely by values of a type parameter
`L`; a notification pass is modelled by the list of events it produces,
one `(listener, snapshot)` pair per invocation, in invocation order.
JavaScript numbers are modelled by `JSNum` (an integer or `NaN`; the
program only ever stores integral people counts and integral bounds).
-/

set_option autoImplicit false

namespace DndApp

/-- Source: `enum ProjectStatus {Active, Finished}`. -/
inductive ProjectStatus where
  | Active
  | Finished
deriving DecidableEq

/-- JavaScript number as used by this program: an integer or `NaN`.
`NaN` is included because `+input` on a non-numeric string yields `NaN`. -/
inductive JSNum where
  | nan
  | int (i : Int)
deriving DecidableEq

/-- Source: `class Project { constructor(public id, public title, public
description, public people, public status) {} }`. -/
structure Project where
  id : String
  title : String
  description : String
  people : Int
  status : ProjectStatus
deriving DecidableEq

/-- Source: `class ProjectState extends State<Project>` — the `listeners`
array inherited from `State<T>` together with the private `projects`
array.  `L` stands for the (opaque) listener functions. -/
structure ProjectState (L : Type) where
  projects : List Project
  listeners : List L
deriving DecidableEq

namespace ProjectState

/-- Source: `private constructor(){ super(); }` — a fresh store has no
projects and no listeners. -/
def new (L : Type) : ProjectState L := { projects := [], listeners := [] }

/-- Source: `addListener(listenerFn){ this.listeners.push(listenerFn); }`
(inherited from `State<T>`). -/
def addListener {L : Type} (listenerFn : L) (s : ProjectState L) : ProjectState L :=
  { s with listeners := s.listeners ++ [listenerFn] }

/-- Source: `private updateListeners(){ for (const listenerFn of
this.listeners){ listenerFn(this.projects.slice()); } }`.  The pass is
modelled by its event trace: each listener, in registration order, is
invoked once with the current project snapshot. -/
def updateListeners {L : Type} (s : ProjectState L) : List (L × List Project) :=
  s.listeners.map (fun listenerFn => (listenerFn, s.projects))

/-- Source: `addProject(title, description, numOfPeople)`.  The id
produced by `Math.random().toString()` is nondeterministic, hence passed
in as the explicit argument `newId`.  Returns the mutated store and the
event trace of the `updateListeners()` call. -/
def addProject {L : Type} (newId title description : String) (numOfPeople : Int)
    (s : ProjectState L) : ProjectState L × List (L × List Project) :=
  let newProject : Project :=
    { id := newId, title := title, description := description,
      people := numOfPeople, status := ProjectStatus.Active }
  let s1 : ProjectState L := { s with projects := s.projects ++ [newProject] }
  (s1, updateListeners s1)

/-- Source: `const project = this.projects.find(prj => prj.id ===
projectId); if (project && project.status != newStatus){ project.status =
newStatus; }` — locate the first project with the given id and mutate its
status in place when it differs. -/
def moveFirst (projectId : String) (newStatus : ProjectStatus) :
    List Project → List Project
  | [] => []
  | prj :: rest =>
    if prj.id = projectId then
      (if prj.status ≠ newStatus then { prj with status := newStatus } else prj) :: rest
    else
      prj :: moveFirst projectId newStatus rest

/-- Source: `moveProject(projectId, newStatus)` — conditional in-place
status update of the first match, then an unconditional
`this.updateListeners()`. -/
def moveProject {L : Type} (projectId : String) (newStatus : ProjectStatus)
    (s : ProjectState L) : ProjectState L × List (L × List Project) :=
  let s1 : ProjectState L := { s with projects := moveFirst projectId newStatus s.projects }
  (s1, updateListeners s1)

end ProjectState

/-- Value carried by a `Validatable`: source `value: string | number`. -/
inductive JSValue where
  | str (s : String)
  | num (n : JSNum)
deriving DecidableEq

/-- Decimal digit characters, `d ↦ '0' + d` for `d < 10` (everything
larger can only arise as `n % 10`, which is `< 10`). -/
def digitOf : Nat → Char
  | 0 => '0'
  | 1 => '1'
  | 2 => '2'
  | 3 => '3'
  | 4 => '4'
  | 5 => '5'
  | 6 => '6'
  | 7 => '7'
  | 8 => '8'
  | 9 => '9'
  | _ + 10 => '9'

/-- Fuel-driven decimal rendering loop: prepends the decimal digits of
`n` (least significant first as it recurses) to `acc`.  `fuel ≥ 1`
always suffices to terminate correctly since `n` shrinks by `/ 10`. -/
def natDecGo : Nat → Nat → List Char → List Char
  | 0, _, acc => acc
  | fuel + 1, n, acc =>
    let acc1 := digitOf (n % 10) :: acc
    if n < 10 then acc1 else natDecGo fuel (n / 10) acc1

/-- Decimal digit string of a natural number, as produced by JavaScript
`Number.prototype.toString` on a non-negative integer. -/
def natDec (n : Nat) : List Char := natDecGo (n + 1) n []

/-- JavaScript `Number.prototype.toString` on the numbers this program
handles: `NaN` prints as `"NaN"`, integers in decimal with a leading
minus sign when negative. -/
def JSNum.render : JSNum → String
  | JSNum.nan => "NaN"
  | JSNum.int i =>
    if i < 0 then (List.cons '-' (natDec (-i).toNat)).asString
    else (natDec i.toNat).asString

/-- Source: `validatableInput.value.toString()` — a string stringifies to
itself, a number to its decimal rendering. -/
def JSValue.toString : JSValue → String
  | JSValue.str s => s
  | JSValue.num n => n.render

/-- JavaScript whitespace characters relevant to `String.prototype.trim`
(ASCII subset; the program never produces the exotic Unicode ones). -/
def isJsWs (c : Char) : Bool :=
  c = ' ' || c = '\t' || c = '\n' || c = '\r' || c = '\x0b' || c = '\x0c'

/-- JavaScript `String.prototype.trim`: drop whitespace from both ends. -/
def jsTrim (s : String) : String :=
  (((s.data.dropWhile isJsWs).reverse.dropWhile isJsWs).reverse).asString

/-- JavaScript `>=` on numbers: any comparison involving `NaN` is false. -/
def JSNum.jsGe : JSNum → JSNum → Bool
  | JSNum.int a, JSNum.int b => decide (b ≤ a)
  | _, _ => false

/-- JavaScript `<=` on numbers: any comparison involving `NaN` is false. -/
def JSNum.jsLe : JSNum → JSNum → Bool
  | JSNum.int a, JSNum.int b => decide (a ≤ b)
  | _, _ => false

/-- Source: `interface Validatable { value; required?; minLength?;
maxLength?; min?; max?; }`.  Optional members are `Option`s (`undefined`
= `none`). -/
structure Validatable where
  value : JSValue
  required : Option Bool := none
  minLength : Option Nat := none
  maxLength : Option Nat := none
  min : Option JSNum := none
  max : Option JSNum := none

/-- Source: `function validate(validatableInput)` — the five rules ANDed
onto `isValid`, each guarded exactly as in the source (`if (…required)`,
`…minLength != null && typeof value === 'string'`, `…min != null &&
typeof value === 'number'`, …). -/
def validate (validatableInput : Validatable) : Bool :=
  let isValid0 := true
  let isValid1 :=
    if validatableInput.required.getD false then
      isValid0 && decide ((jsTrim validatableInput.value.toString).length ≠ 0)
    else isValid0
  let isValid2 :=
    match validatableInput.minLength, validatableInput.value with
    | some ml, JSValue.str s => isValid1 && decide (ml ≤ s.length)
    | _, _ => isValid1
  let isValid3 :=
    match validatableInput.maxLength, validatableInput.value with
    | some ml, JSValue.str s => isValid2 && decide (s.length ≤ ml)
    | _, _ => isValid2
  let isValid4 :=
    match validatableInput.min, validatableInput.value with
    | some mn, JSValue.num n => isValid3 && JSNum.jsGe n mn
    | _, _ => isValid3
  let isValid5 :=
    match validatableInput.max, validatableInput.value with
    | some mx, JSValue.num n => isValid4 && JSNum.jsLe n mx
    | _, _ => isValid4
  isValid5

/-- Result of a `dragover` event delivery: whether `preventDefault()` was
called, and the drop surface's class list afterwards. -/
structure DragOverOutcome where
  defaultPrevented : Bool
  classList : List String
deriving DecidableEq

/-- DOM `classList.add`: appends the class token unless already present. -/
def classListAdd (classList : List String) (cls : String) : List String :=
  if cls ∈ classList then classList else classList ++ [cls]

/-- Source: `dragOverHandler(event){ if (event.dataTransfer &&
event.dataTransfer.types[0] == 'text/plain'){ event.preventDefault();
…listEl.classList.add('droppable'); } }`.  `dataTransferTypes` is the
transfer channel's type list (`none` when `event.dataTransfer` is null);
`classList` is the `ul` drop surface's class list before the event. -/
def dragOverHandler (dataTransferTypes : Option (List String))
    (classList : List String) : DragOverOutcome :=
  match dataTransferTypes with
  | some types =>
    if types.head? = some "text/plain" then
      { defaultPrevented := true, classList := classListAdd classList "droppable" }
    else
      { defaultPrevented := false, classList := classList }
  | none => { defaultPrevented := false, classList := classList }

/-- World for the singleton accessor: the static `ProjectState.instance`
slot (an optional reference), a heap of allocated `ProjectState` objects
addressed by `Nat`, and the next fresh address. -/
structure StoreWorld (L : Type) where
  instanceSlot : Option Nat
  stores : Nat → ProjectState L
  nextStore : Nat

namespace StoreWorld

/-- Source: `static getInstance(){ if (this.instance){ return
this.instance; } return new ProjectState(); }` — when the slot is empty a
fresh store is allocated and returned, and the slot is NOT assigned. -/
def getInstance {L : Type} (w : StoreWorld L) : StoreWorld L × Nat :=
  match w.instanceSlot with
  | some a => (w, a)
  | none =>
    ({ instanceSlot := w.instanceSlot,
       stores := fun b => if b = w.nextStore then ProjectState.new L else w.stores b,
       nextStore := w.nextStore + 1 }, w.nextStore)

/-- Calling `addProject` on the store object at address `a`. -/
def addProjectAt {L : Type} (a : Nat) (newId title description : String)
    (numOfPeople : Int) (w : StoreWorld L) :
    StoreWorld L × List (L × List Project) :=
  let r := ProjectState.addProject newId title description numOfPeople (w.stores a)
  ({ w with stores := fun b => if b = a then r.1 else w.stores b }, r.2)

/-- Calling `addListener` on the store object at address `a`. -/
def addListenerAt {L : Type} (a : Nat) (listenerFn : L) (w : StoreWorld L) :
    StoreWorld L :=
  { w with stores := fun b => if b = a then ProjectState.addListener listenerFn (w.stores b)
                              else w.stores b }

end StoreWorld

/-- JavaScript object memory for the snapshot-sharing analysis: a heap of
`Project` objects and a heap of arrays of `Project` references, with the
next fresh array address.  An array value is the list of addresses of the
`Project` objects it holds — exactly the aliasing `Array.prototype.slice`
exposes. -/
structure Mem where
  objs : Nat → Project
  arrs : Nat → List Nat
  nextArr : Nat

namespace Mem

/-- JavaScript `array.slice()` on the array at address `a`: allocates a
fresh array holding the same element references. -/
def slice (m : Mem) (a : Nat) : Mem × Nat :=
  ({ objs := m.objs,
     arrs := fun b => if b = m.nextArr then m.arrs a else m.arrs b,
     nextArr := m.nextArr + 1 }, m.nextArr)

/-- A listener assigning to the `status` field of a `Project` object it
reached through its snapshot: `snapshot[i].status = st` writes the object
at address `oa`. -/
def writeStatus (m : Mem) (oa : Nat) (st : ProjectStatus) : Mem :=
  { m with objs := fun b => if b = oa then { m.objs oa with status := st } else m.objs b }

/-- A listener mutating its snapshot array itself, e.g. `snapshot.push(x)`:
writes the array at address `ar`, not the object heap. -/
def arrPush (m : Mem) (ar oa : Nat) : Mem :=
  { m with arrs := fun b => if b = ar then m.arrs ar ++ [oa] else m.arrs b }

end Mem

/-- The store at the reference level: the private `projects` field is
a reference to an array object in `Mem`. -/
structure RefProjectState (L : Type) where
  projectsRef : Nat
  listeners : List L

/-- The loop body sequence of `updateListeners` at the reference level:
for each listener in order, allocate `this.projects.slice()` and invoke
the listener with the fresh snapshot reference; `acc` accumulates the
`(listener, snapshot reference)` events. -/
def notifyGo {L : Type} (projectsRef : Nat) :
    List L → Mem → List (L × Nat) → Mem × List (L × Nat)
  | [], m, acc => (m, acc)
  | listenerFn :: rest, m, acc =>
    let r := Mem.slice m projectsRef
    notifyGo projectsRef rest r.1 (acc ++ [(listenerFn, r.2)])

/-- Source `updateListeners` at the reference level: each listener gets a
fresh `this.projects.slice()`. -/
def updateListenersRef {L : Type} (m : Mem) (s : RefProjectState L) :
    Mem × List (L × Nat) :=
  notifyGo s.projectsRef s.listeners m []

/-! Concrete instances used to instantiate the theorems below. -/

/-- Concrete project record. -/
def p0 : Project :=
  { id := "p0", title := "Build API", description := "Implement REST endpoints",
    people := 3, status := ProjectStatus.Active }

/-- Concrete store holding `p0` with one registered listener (labelled `5`). -/
def s0 : ProjectState Nat := { projects := [p0], listeners := [5] }

/-- Concrete singleton world whose static instance slot is empty. -/
def w0 : StoreWorld Nat :=
  { instanceSlot := none, stores := fun _ => ProjectState.new Nat, nextStore := 0 }

/-- Concrete memory: one `Project` object at address `0`, the store's
array at array-address `0` holding that single reference. -/
def m0 : Mem :=
  { objs := fun _ => p0, arrs := fun b => if b = 0 then [0] else [], nextArr := 1 }

/-- Concrete reference-level store over `m0` with one listener (labelled `7`). -/
def refS0 : RefProjectState Nat := { projectsRef := 0, listeners := [7] }

/-- Memory and event trace of one notification pass over `m0`/`refS0`. -/
def notified0 : Mem × List (Nat × Nat) := updateListenersRef m0 refS0

/-- Snapshot array reference handed to the single listener of `refS0`. -/
def snapRef0 : Nat := (notified0.2.headD (7, 0)).2

/-- Address of the first `Project` element of that snapshot. -/
def snapElem0 : Nat := (notified0.1.arrs snapRef0).headD 0

/-- Memory after the listener performs `snapshot[0].status = Finished` on
the snapshot it received. -/
def mAfterWrite0 : Mem := Mem.writeStatus notified0.1 snapElem0 ProjectStatus.Finished

/-! Theorems. -/

/-- Claim C1: for every `(title, description, peopleCount)` triple and
every store state, `addProject` grows the project sequence by exactly 1,
the new project has status `Active` and sits at the end of the sequence,
the listener list is unchanged, and the notification trace invokes every
registered listener exactly once, strictly in registration order, with a
snapshot whose last element is the new project. -/
theorem addProject_spec {L : Type} (newId title description : String)
    (numOfPeople : Int) (s : ProjectState L) :
    (ProjectState.addProject newId title description numOfPeople s).1.projects.length
        = s.projects.length + 1 ∧
    (ProjectState.addProject newId title description numOfPeople s).1.projects
        = s.projects ++
          [{ id := newId, title := title, description := description,
             people := numOfPeople, status := ProjectStatus.Active }] ∧
    (ProjectState.addProject newId title description numOfPeople s).1.listeners
        = s.listeners ∧
    (ProjectState.addProject newId title description numOfPeople s).2
        = s.listeners.map (fun listenerFn =>
            (listenerFn,
             s.projects ++
               [{ id := newId, title := title, description := description,
                  people := numOfPeople, status := ProjectStatus.Active }])) := by
  refine ⟨?_, rfl, rfl, rfl⟩
  simp [ProjectState.addProject]

/-- Claim C8: the four concrete test vectors of the validation gate. -/
theorem validate_vectors :
    validate { value := JSValue.str "", required := some true } = false ∧
    validate { value := JSValue.str "ab", required := some true,
               minLength := some 5 } = false ∧
    validate { value := JSValue.num (JSNum.int 3), required := some true,
               min := some (JSNum.int 1), max := some (JSNum.int 5) } = true ∧
    validate { value := JSValue.num (JSNum.int 6), min := some (JSNum.int 1),
               max := some (JSNum.int 5) } = false := by
  decide

/-- A class token is present after `classList.add` of that token. -/
theorem classListAdd_mem (classList : List String) (cls : String) :
    cls ∈ classListAdd classList cls := by
  by_cases h : cls ∈ classList <;> simp [classListAdd, h]

/-- Claim C5: the `dragover` handler calls `preventDefault` and applies
the `droppable` marker exactly when the transfer channel exists and its
type list offers `text/plain` in first position; for every other type
list (including ones with `text/plain` in a non-first position) and for
a null transfer channel it takes no action, leaving the class list
untouched and the default reject behavior standing. -/
theorem dragOverHandler_spec (dataTransferTypes : Option (List String))
    (classList : List String) :
    ((∃ types, dataTransferTypes = some types ∧ types.head? = some "text/plain") →
      (dragOverHandler dataTransferTypes classList).defaultPrevented = true ∧
      (dragOverHandler dataTransferTypes classList).classList
          = classListAdd classList "droppable" ∧
      "droppable" ∈ (dragOverHandler dataTransferTypes classList).classList) ∧
    ((∀ types, dataTransferTypes = some types → ¬ types.head? = some "text/plain") →
      (dragOverHandler dataTransferTypes classList).defaultPrevented = false ∧
      (dragOverHandler dataTransferTypes classList).classList = classList) := by
  constructor
  · rintro ⟨types, rfl, h⟩
    refine ⟨by simp [dragOverHandler, h], by simp [dragOverHandler, h], ?_⟩
    simpa [dragOverHandler, h] using classListAdd_mem classList "droppable"
  · intro h
    cases hdt : dataTransferTypes with
    | none => simp [dragOverHandler]
    | some types => simp [dragOverHandler, h types hdt]

/-- Witness for C5 at a concrete event: a two-type list offering
`text/plain` first gets the default suppressed and the marker applied. -/
theorem dragOverHandler_spec_witness :
    (dragOverHandler (some ["text/plain", "text/html"]) []).defaultPrevented = true ∧
    "droppable" ∈ (dragOverHandler (some ["text/plain", "text/html"]) []).classList :=
  have h := (dragOverHandler_spec (some ["text/plain", "text/html"]) []).1
    ⟨["text/plain", "text/html"], rfl, rfl⟩
  ⟨h.1, h.2.2⟩

/-- Frame property of the first-match status update: the result is
pointwise related to the input — all fields except possibly `status` are
preserved, and an entry changes at all only when its id is the searched
one, in which case only its status is set. -/
theorem moveFirst_frame (projectId : String) (newStatus : ProjectStatus) :
    ∀ l : List Project,
      List.Forall₂ (fun q p =>
        q.id = p.id ∧ q.title = p.title ∧ q.description = p.description ∧
        q.people = p.people ∧
        (q = p ∨ (p.id = projectId ∧ q = { p with status := newStatus })))
      (ProjectState.moveFirst projectId newStatus l) l
  | [] => List.Forall₂.nil
  | prj :: rest => by
    unfold ProjectState.moveFirst
    by_cases h : prj.id = projectId
    · rw [if_pos h]
      refine List.Forall₂.cons ?_
        (List.forall₂_same.mpr (fun a _ => ⟨rfl, rfl, rfl, rfl, Or.inl rfl⟩))
      by_cases hs : prj.status ≠ newStatus
      · rw [if_pos hs]
        exact ⟨rfl, rfl, rfl, rfl, Or.inr ⟨h, rfl⟩⟩
      · rw [if_neg hs]
        exact ⟨rfl, rfl, rfl, rfl, Or.inl rfl⟩
    · rw [if_neg h]
      exact List.Forall₂.cons ⟨rfl, rfl, rfl, rfl, Or.inl rfl⟩
        (moveFirst_frame projectId newStatus rest)

/-- Claim C7: a `moveProject` call preserves the sequence length and
order; every project keeps its `id`, `title`, `description` and `people`
fields, every project whose id is not the searched one is entirely
unchanged, and the matched project is changed at most in its `status`
field (set to the new status). -/
theorem moveProject_frame {L : Type} (projectId : String)
    (newStatus : ProjectStatus) (s : ProjectState L) :
    (ProjectState.moveProject projectId newStatus s).1.projects.length
        = s.projects.length ∧
    List.Forall₂ (fun q p =>
        q.id = p.id ∧ q.title = p.title ∧ q.description = p.description ∧
        q.people = p.people ∧
        (q = p ∨ (p.id = projectId ∧ q = { p with status := newStatus })))
      (ProjectState.moveProject projectId newStatus s).1.projects s.projects :=
  ⟨(moveFirst_frame projectId newStatus s.projects).length_eq,
   moveFirst_frame projectId newStatus s.projects⟩

/-- When no entry matches the searched id, the first-match update is the
identity. -/
theorem moveFirst_not_found (projectId : String) (newStatus : ProjectStatus) :
    ∀ l : List Project, (∀ p ∈ l, p.id ≠ projectId) →
      ProjectState.moveFirst projectId newStatus l = l
  | [], _ => rfl
  | prj :: rest, h => by
    unfold ProjectState.moveFirst
    rw [if_neg (h prj (List.mem_cons_self prj rest))]
    rw [moveFirst_not_found projectId newStatus rest
      (fun p hp => h p (List.mem_cons_of_mem prj hp))]

/-- Claim C6: `moveProject` with an id matching no project leaves the
store (sequence and every project in it, and the listener list) entirely
unchanged — a no-op, not an error — yet the notification trace still
invokes every registered listener, in registration order, with a snapshot
of the (unchanged) sequence. -/
theorem moveProject_missing_id {L : Type} (projectId : String)
    (newStatus : ProjectStatus) (s : ProjectState L)
    (h : ∀ p ∈ s.projects, p.id ≠ projectId) :
    (ProjectState.moveProject projectId newStatus s).1 = s ∧
    (ProjectState.moveProject projectId newStatus s).2
        = s.listeners.map (fun listenerFn => (listenerFn, s.projects)) := by
  have hm := moveFirst_not_found projectId newStatus s.projects h
  constructor
  · show ({ s with projects := ProjectState.moveFirst projectId newStatus s.projects }
        : ProjectState L) = s
    rw [hm]
  · show ({ s with projects := ProjectState.moveFirst projectId newStatus s.projects }
        : ProjectState L).listeners.map _ = _
    rw [hm]

/-- Witness for C6: moving a nonexistent id on the concrete store `s0`
changes nothing but still notifies the listener labelled `5`. -/
theorem moveProject_missing_id_witness :
    (ProjectState.moveProject "nope" ProjectStatus.Finished s0).1 = s0 ∧
    (ProjectState.moveProject "nope" ProjectStatus.Finished s0).2
        = s0.listeners.map (fun listenerFn => (listenerFn, s0.projects)) :=
  moveProject_missing_id "nope" ProjectStatus.Finished s0 (by decide)

/-- Under unique ids, the first-match update really sets the status of
the (unique) matching entry: afterwards every entry with the searched id
has the new status, and such an entry exists. -/
theorem moveFirst_sets_status (projectId : String) (newStatus : ProjectStatus) :
    ∀ l : List Project, (l.map Project.id).Nodup → (∃ p ∈ l, p.id = projectId) →
      (∀ q ∈ ProjectState.moveFirst projectId newStatus l,
        q.id = projectId → q.status = newStatus) ∧
      (∃ q ∈ ProjectState.moveFirst projectId newStatus l, q.id = projectId) := by
  intro l
  induction l with
  | nil => rintro _ ⟨p, hp, _⟩; exact absurd hp (List.not_mem_nil p)
  | cons prj rest ih =>
    intro hnd hex
    rw [List.map_cons, List.nodup_cons] at hnd
    unfold ProjectState.moveFirst
    by_cases h : prj.id = projectId
    · rw [if_pos h]
      set q0 : Project :=
        if prj.status ≠ newStatus then { prj with status := newStatus } else prj with hq0
      have hq0id : q0.id = projectId := by
        rw [hq0]; by_cases hs : prj.status ≠ newStatus
        · rw [if_pos hs]; exact h
        · rw [if_neg hs]; exact h
      have hq0st : q0.status = newStatus := by
        rw [hq0]; by_cases hs : prj.status ≠ newStatus
        · rw [if_pos hs]
        · rw [if_neg hs]; exact not_not.mp hs
      refine ⟨?_, q0, List.mem_cons_self q0 rest, hq0id⟩
      intro q hq hqid
      rcases List.mem_cons.mp hq with rfl | hqr
      · exact hq0st
      · exfalso
        exact hnd.1 (by
          rw [h, ← hqid]
          exact List.mem_map_of_mem Project.id hqr)
    · rw [if_neg h]
      have hex' : ∃ p ∈ rest, p.id = projectId := by
        rcases hex with ⟨p, hp, hpid⟩
        rcases List.mem_cons.mp hp with rfl | hpr
        · exact absurd hpid h
        · exact ⟨p, hpr, hpid⟩
      rcases ih hnd.2 hex' with ⟨hall, q, hqmem, hqid⟩
      refine ⟨?_, q, List.mem_cons_of_mem prj hqmem, hqid⟩
      intro q1 hq1 hq1id
      rcases List.mem_cons.mp hq1 with rfl | hq1r
      · exact absurd hq1id h
      · exact hall q1 hq1r hq1id

/-- Claim C2: for a project `p` present in a store with unique ids,
`moveProject p.id newStatus` yields a store in which the project with id
`p.id` has status `newStatus` (it exists and every match has that
status), the listener list is unchanged, and the notification trace
invokes every registered listener, in registration order, with a
snapshot of the resulting sequence — regardless of whether `p.status`
already equalled `newStatus` before the call. -/
theorem moveProject_sets_status {L : Type} (p : Project)
    (newStatus : ProjectStatus) (s : ProjectState L)
    (hmem : p ∈ s.projects) (hids : (s.projects.map Project.id).Nodup) :
    (∀ q ∈ (ProjectState.moveProject p.id newStatus s).1.projects,
      q.id = p.id → q.status = newStatus) ∧
    (∃ q ∈ (ProjectState.moveProject p.id newStatus s).1.projects, q.id = p.id) ∧
    (ProjectState.moveProject p.id newStatus s).1.listeners = s.listeners ∧
    (ProjectState.moveProject p.id newStatus s).2
        = s.listeners.map (fun listenerFn =>
            (listenerFn, (ProjectState.moveProject p.id newStatus s).1.projects)) := by
  have hkey := moveFirst_sets_status p.id newStatus s.projects hids ⟨p, hmem, rfl⟩
  exact ⟨hkey.1, hkey.2, rfl, rfl⟩

/-- Witness for C2 at a concrete no-change move: `p0` is already
`Active`, yet moving it to `Active` still notifies the listener. -/
theorem moveProject_sets_status_witness :
    (ProjectState.moveProject p0.id ProjectStatus.Active s0).1.listeners
        = s0.listeners ∧
    (ProjectState.moveProject p0.id ProjectStatus.Active s0).2
        = s0.listeners.map (fun listenerFn =>
            (listenerFn,
             (ProjectState.moveProject p0.id ProjectStatus.Active s0).1.projects)) :=
  have h := moveProject_sets_status p0 ProjectStatus.Active s0 (by decide) (by decide)
  ⟨h.2.2.1, h.2.2.2⟩

/-- Claim C9: `addListener` performs no de-duplication — registering the
same listener twice on a store that does not yet hold it makes each
single mutation (`addProject` as well as `moveProject`) invoke that
listener exactly twice in its notification trace. -/
theorem addListener_no_dedup {L : Type} [DecidableEq L] (listenerFn : L)
    (s : ProjectState L) (h : listenerFn ∉ s.listeners)
    (newId title description : String) (numOfPeople : Int)
    (projectId : String) (newStatus : ProjectStatus) :
    ((ProjectState.addProject newId title description numOfPeople
        (ProjectState.addListener listenerFn
          (ProjectState.addListener listenerFn s))).2.countP
        (fun e => decide (e.1 = listenerFn))) = 2 ∧
    ((ProjectState.moveProject projectId newStatus
        (ProjectState.addListener listenerFn
          (ProjectState.addListener listenerFn s))).2.countP
        (fun e => decide (e.1 = listenerFn))) = 2 := by
  have key : ∀ snap : List Project,
      (((s.listeners ++ [listenerFn]) ++ [listenerFn]).map
        (fun g => (g, snap))).countP (fun e => decide (e.1 = listenerFn)) = 2 := by
    intro snap
    rw [List.countP_map, List.countP_append, List.countP_append]
    have h0 : s.listeners.countP
        ((fun e : L × List Project => decide (e.1 = listenerFn)) ∘ fun g => (g, snap)) = 0 := by
      rw [List.countP_eq_zero]
      intro a ha
      simp only [Function.comp_apply, decide_eq_true_eq]
      exact fun hc => h (hc ▸ ha)
    rw [h0]
    simp [List.countP_cons]
  exact ⟨key _, key _⟩

/-- Witness for C9: a doubly registered listener labelled `5` on the
fresh store is invoked exactly twice by one `addProject` and exactly
twice by one `moveProject`. -/
theorem addListener_no_dedup_witness :
    ((ProjectState.addProject "i" "t" "d" 1
        (ProjectState.addListener 5
          (ProjectState.addListener 5 (ProjectState.new Nat)))).2.countP
        (fun e => decide (e.1 = 5))) = 2 ∧
    ((ProjectState.moveProject "p" ProjectStatus.Active
        (ProjectState.addListener 5
          (ProjectState.addListener 5 (ProjectState.new Nat)))).2.countP
        (fun e => decide (e.1 = 5))) = 2 :=
  addListener_no_dedup 5 (ProjectState.new Nat) (by decide) "i" "t" "d" 1 "p"
    ProjectStatus.Active

/-- Claim C4: with an empty static `instance` slot, `getInstance`
constructs and returns a fresh `ProjectState` WITHOUT assigning the slot;
consequently two successive calls return distinct store objects, each a
freshly constructed empty store, and mutating the first store (adding a
project or a listener) leaves the state of the second untouched — they
share no project or listener state. -/
theorem getInstance_no_cache {L : Type} (w : StoreWorld L)
    (h : w.instanceSlot = none) :
    (StoreWorld.getInstance w).1.instanceSlot = none ∧
    (StoreWorld.getInstance w).2
        ≠ (StoreWorld.getInstance (StoreWorld.getInstance w).1).2 ∧
    (StoreWorld.getInstance w).1.stores (StoreWorld.getInstance w).2
        = ProjectState.new L ∧
    (StoreWorld.getInstance (StoreWorld.getInstance w).1).1.stores
        (StoreWorld.getInstance (StoreWorld.getInstance w).1).2
        = ProjectState.new L ∧
    (∀ (newId title description : String) (numOfPeople : Int),
      (StoreWorld.addProjectAt (StoreWorld.getInstance w).2 newId title
          description numOfPeople
          (StoreWorld.getInstance (StoreWorld.getInstance w).1).1).1.stores
        (StoreWorld.getInstance (StoreWorld.getInstance w).1).2
      = (StoreWorld.getInstance (StoreWorld.getInstance w).1).1.stores
          (StoreWorld.getInstance (StoreWorld.getInstance w).1).2) ∧
    (∀ listenerFn : L,
      (StoreWorld.addListenerAt (StoreWorld.getInstance w).2 listenerFn
          (StoreWorld.getInstance (StoreWorld.getInstance w).1).1).stores
        (StoreWorld.getInstance (StoreWorld.getInstance w).1).2
      = (StoreWorld.getInstance (StoreWorld.getInstance w).1).1.stores
          (StoreWorld.getInstance (StoreWorld.getInstance w).1).2) := by
  refine ⟨?_, ?_, ?_, ?_, ?_, ?_⟩
  · simp [StoreWorld.getInstance, h]
  · simp [StoreWorld.getInstance, h]
  · simp [StoreWorld.getInstance, h]
  · simp [StoreWorld.getInstance, h]
  · intro newId title description numOfPeople
    simp [StoreWorld.getInstance, h, StoreWorld.addProjectAt]
  · intro listenerFn
    simp [StoreWorld.getInstance, h, StoreWorld.addListenerAt]

/-- Witness for C4 at the concrete empty-slot world `w0`: the slot stays
empty, the two returned addresses differ, and an `addProject` on the
first returned store does not change the second returned store. -/
theorem getInstance_no_cache_witness :
    (StoreWorld.getInstance w0).1.instanceSlot = none ∧
    (StoreWorld.getInstance w0).2
        ≠ (StoreWorld.getInstance (StoreWorld.getInstance w0).1).2 ∧
    (StoreWorld.addProjectAt (StoreWorld.getInstance w0).2 "i" "t" "d" 1
        (StoreWorld.getInstance (StoreWorld.getInstance w0).1).1).1.stores
      (StoreWorld.getInstance (StoreWorld.getInstance w0).1).2
      = (StoreWorld.getInstance (StoreWorld.getInstance w0).1).1.stores
        (StoreWorld.getInstance (StoreWorld.getInstance w0).1).2 :=
  have hw := getInstance_no_cache w0 rfl
  ⟨hw.1, hw.2.1, hw.2.2.2.2.1 "i" "t" "d" 1⟩

/-- Dropping-while is the identity on a list none of whose elements
satisfy the predicate. -/
theorem dropWhile_eq_self_of_not (p : Char → Bool) :
    ∀ l : List Char, (∀ c ∈ l, p c = false) → l.dropWhile p = l
  | [], _ => rfl
  | c :: cs, h => by
    have hc := h c (List.mem_cons_self c cs)
    simp [List.dropWhile_cons, hc]

/-- No decimal digit character is JavaScript whitespace. -/
theorem digitOf_not_ws : ∀ d : Nat, isJsWs (digitOf d) = false
  | 0 => rfl
  | 1 => rfl
  | 2 => rfl
  | 3 => rfl
  | 4 => rfl
  | 5 => rfl
  | 6 => rfl
  | 7 => rfl
  | 8 => rfl
  | 9 => rfl
  | _ + 10 => rfl

/-- Every character produced by the decimal rendering loop is a digit (in
particular, not whitespace), provided the accumulator already satisfies
this. -/
theorem natDecGo_not_ws :
    ∀ (fuel n : Nat) (acc : List Char), (∀ c ∈ acc, isJsWs c = false) →
      ∀ c ∈ natDecGo fuel n acc, isJsWs c = false
  | 0, _, _, hacc => hacc
  | fuel + 1, n, acc, hacc => by
    have hacc1 : ∀ c ∈ digitOf (n % 10) :: acc, isJsWs c = false := by
      intro c hc
      rcases List.mem_cons.mp hc with rfl | hcr
      · exact digitOf_not_ws (n % 10)
      · exact hacc c hcr
    unfold natDecGo
    by_cases hn : n < 10
    · simpa [hn] using hacc1
    · simpa [hn] using natDecGo_not_ws fuel (n / 10) (digitOf (n % 10) :: acc) hacc1

/-- The decimal rendering loop strictly lengthens the accumulator when it
has fuel. -/
theorem natDecGo_length_lt :
    ∀ (fuel n : Nat) (acc : List Char), 0 < fuel →
      acc.length < (natDecGo fuel n acc).length
  | 0, _, _, hf => absurd hf (by omega)
  | fuel + 1, n, acc, _ => by
    unfold natDecGo
    by_cases hn : n < 10
    · simp [hn]
    · simp only [if_neg hn]
      cases fuel with
      | zero => simp [natDecGo]
      | succ f =>
        have hrec := natDecGo_length_lt (f + 1) (n / 10)
          (digitOf (n % 10) :: acc) (Nat.succ_pos f)
        have hstep : acc.length < (digitOf (n % 10) :: acc).length := by simp
        omega

/-- The decimal digit string of a natural number is nonempty. -/
theorem natDec_ne_nil (n : Nat) : natDec n ≠ [] := by
  have h := natDecGo_length_lt (n + 1) n [] (by omega)
  intro hcontra
  rw [natDec] at hcontra
  rw [hcontra] at h
  simp at h

/-- The decimal digit string of a natural number has no whitespace. -/
theorem natDec_not_ws (n : Nat) : ∀ c ∈ natDec n, isJsWs c = false :=
  natDecGo_not_ws (n + 1) n [] (by intro c hc; exact absurd hc (List.not_mem_nil c))

/-- Trimming preserves the length of a string containing no JavaScript
whitespace. -/
theorem jsTrim_length_of_not_ws (l : List Char)
    (h : ∀ c ∈ l, isJsWs c = false) :
    (jsTrim l.asString).length = l.length := by
  show (((l.dropWhile isJsWs).reverse.dropWhile isJsWs).reverse).length = l.length
  rw [dropWhile_eq_self_of_not isJsWs l h]
  rw [dropWhile_eq_self_of_not isJsWs l.reverse
    (fun c hc => h c (List.mem_reverse.mp hc))]
  simp

/-- The trimmed decimal string form of every JavaScript number (including
`0` and `NaN`) is nonempty. -/
theorem render_trim_length_ne_zero (n : JSNum) : (jsTrim n.render).length ≠ 0 := by
  cases n with
  | nan => decide
  | int i =>
    by_cases hi : i < 0
    · have hr : JSNum.render (JSNum.int i) = (List.cons '-' (natDec (-i).toNat)).asString := by
        simp [JSNum.render, hi]
      have hw : ∀ c ∈ List.cons '-' (natDec (-i).toNat), isJsWs c = false := by
        intro c hc
        rcases List.mem_cons.mp hc with rfl | hcr
        · rfl
        · exact natDec_not_ws _ c hcr
      rw [hr, jsTrim_length_of_not_ws _ hw]
      simp
    · have hr : JSNum.render (JSNum.int i) = (natDec i.toNat).asString := by
        simp [JSNum.render, hi]
      rw [hr, jsTrim_length_of_not_ws _ (natDec_not_ws i.toNat)]
      have := natDec_ne_nil i.toNat
      intro hlen
      exact this (List.eq_nil_of_length_eq_zero hlen)

/-- Claim C10: the `required` rule of `validate` is satisfied by every
numeric value — the trimmed decimal string form of a number is never
empty (including `0` and `NaN`) — hence a `Validatable` carrying a
numeric value and no `min`/`max` constraint always validates: a numeric
value can be rejected only through the `min` or `max` rules, never
through `required`. -/
theorem validate_num_required_always_holds (n : JSNum) (v : Validatable)
    (hv : v.value = JSValue.num n) (hmin : v.min = none) (hmax : v.max = none) :
    (jsTrim (JSValue.toString (JSValue.num n))).length ≠ 0 ∧
    validate v = true := by
  refine ⟨render_trim_length_ne_zero n, ?_⟩
  rcases v with ⟨value, required, minLength, maxLength, mn, mx⟩
  simp only at hv hmin hmax
  subst hv hmin hmax
  unfold validate
  simp only
  have hd : (jsTrim (JSValue.num n).toString).length ≠ 0 :=
    render_trim_length_ne_zero n
  rw [decide_eq_true hd]
  cases required with
  | none => rfl
  | some b => cases b <;> rfl

/-- Witness for C10 at `NaN`: even `NaN` passes the `required` rule, and
a required `NaN` with no numeric bounds validates. -/
theorem validate_num_required_always_holds_witness :
    (jsTrim (JSValue.toString (JSValue.num JSNum.nan))).length ≠ 0 ∧
    validate { value := JSValue.num JSNum.nan, required := some true } = true :=
  validate_num_required_always_holds JSNum.nan
    { value := JSValue.num JSNum.nan, required := some true } rfl rfl rfl

/-- Invariant of the notification loop: `Project` objects are untouched,
every previously allocated array is untouched, and every new event's
snapshot reference is a fresh array holding exactly the store array's
element references. -/
theorem notifyGo_spec {L : Type} (projectsRef : Nat) :
    ∀ (fs : List L) (m : Mem) (acc : List (L × Nat)), projectsRef < m.nextArr →
      (notifyGo projectsRef fs m acc).1.objs = m.objs ∧
      (notifyGo projectsRef fs m acc).1.nextArr = m.nextArr + fs.length ∧
      (∀ b, b < m.nextArr → (notifyGo projectsRef fs m acc).1.arrs b = m.arrs b) ∧
      (∀ ev ∈ (notifyGo projectsRef fs m acc).2,
        ev ∈ acc ∨
          (m.nextArr ≤ ev.2 ∧
           (notifyGo projectsRef fs m acc).1.arrs ev.2 = m.arrs projectsRef))
  | [], m, acc, _ =>
    ⟨rfl, rfl, fun _ _ => rfl, fun _ hev => Or.inl hev⟩
  | listenerFn :: rest, m, acc, hpr => by
    have hm1 : (Mem.slice m projectsRef).1.nextArr = m.nextArr + 1 := rfl
    have hpr1 : projectsRef < (Mem.slice m projectsRef).1.nextArr := by
      rw [hm1]; omega
    have ih := notifyGo_spec projectsRef rest (Mem.slice m projectsRef).1
      (acc ++ [(listenerFn, m.nextArr)]) hpr1
    have hgo : notifyGo projectsRef (listenerFn :: rest) m acc
        = notifyGo projectsRef rest (Mem.slice m projectsRef).1
          (acc ++ [(listenerFn, m.nextArr)]) := rfl
    rw [hgo]
    refine ⟨ih.1, ?_, ?_, ?_⟩
    · rw [ih.2.1, hm1, List.length_cons]; omega
    · intro b hb
      have hb1 : b < (Mem.slice m projectsRef).1.nextArr := by rw [hm1]; omega
      rw [ih.2.2.1 b hb1]
      show (if b = m.nextArr then m.arrs projectsRef else m.arrs b) = m.arrs b
      rw [if_neg (by omega)]
    · intro ev hev
      have hsrc : (Mem.slice m projectsRef).1.arrs projectsRef = m.arrs projectsRef := by
        show (if projectsRef = m.nextArr then m.arrs projectsRef
              else m.arrs projectsRef) = m.arrs projectsRef
        split <;> rfl
      rcases ih.2.2.2 ev hev with hacc | ⟨hle, harr⟩
      · rcases List.mem_append.mp hacc with hacc1 | hacc2
        · exact Or.inl hacc1
        · right
          have hev2 : ev.2 = m.nextArr := by
            rcases List.mem_singleton.mp hacc2 with rfl
            rfl
          constructor
          · omega
          · have hlt : ev.2 < (Mem.slice m projectsRef).1.nextArr := by
              rw [hm1]; omega
            rw [ih.2.2.1 ev.2 hlt, hev2]
            show (if m.nextArr = m.nextArr then m.arrs projectsRef
                  else m.arrs m.nextArr) = m.arrs projectsRef
            rw [if_pos rfl]
      · right
        rw [hm1] at hle
        exact ⟨by omega, by rw [harr, hsrc]⟩

/-- Amended claim C3: `updateListeners` passes each listener a SHALLOW
copy of the project sequence.  The snapshot array is a fresh array,
distinct from the store's own array, with the same element references:
the notification itself changes no `Project` object and no existing
array; mutating the snapshot array (e.g. pushing onto it) leaves the
store's sequence unchanged; but assigning to a field of a `Project`
element of the snapshot mutates the store-owned `Project` itself — the
store's array still reaches the written object, which now carries the
listener's value. -/
theorem updateListeners_shallow_copy {L : Type} (m : Mem)
    (s : RefProjectState L) (hval : s.projectsRef < m.nextArr) :
    (updateListenersRef m s).1.objs = m.objs ∧
    (updateListenersRef m s).1.arrs s.projectsRef = m.arrs s.projectsRef ∧
    (∀ ev ∈ (updateListenersRef m s).2,
      ev.2 ≠ s.projectsRef ∧
      (updateListenersRef m s).1.arrs ev.2 = m.arrs s.projectsRef ∧
      (∀ oa, (Mem.arrPush (updateListenersRef m s).1 ev.2 oa).arrs s.projectsRef
          = m.arrs s.projectsRef) ∧
      (∀ oa st, oa ∈ m.arrs s.projectsRef →
        (Mem.writeStatus (updateListenersRef m s).1 oa st).arrs s.projectsRef
            = m.arrs s.projectsRef ∧
        ((Mem.writeStatus (updateListenersRef m s).1 oa st).objs oa).status = st)) := by
  have h := notifyGo_spec s.projectsRef s.listeners m [] hval
  have hstore : (updateListenersRef m s).1.arrs s.projectsRef
      = m.arrs s.projectsRef := h.2.2.1 s.projectsRef hval
  refine ⟨h.1, hstore, ?_⟩
  intro ev hev
  rcases h.2.2.2 ev hev with habs | ⟨hle, harr⟩
  · exact absurd habs (List.not_mem_nil ev)
  · refine ⟨by omega, harr, ?_, ?_⟩
    · intro oa
      show (if s.projectsRef = ev.2
            then (updateListenersRef m s).1.arrs ev.2 ++ [oa]
            else (updateListenersRef m s).1.arrs s.projectsRef)
          = m.arrs s.projectsRef
      rw [if_neg (by omega)]
      exact hstore
    · intro oa st _
      exact ⟨hstore, by
        show (if oa = oa
              then { (updateListenersRef m s).1.objs oa with status := st }
              else (updateListenersRef m s).1.objs oa).status = st
        rw [if_pos rfl]⟩

/-- Counterexample to claim C3 as stated: in the concrete memory `m0`
the store owns one `Project` (status `Active`).  After one notification,
the listener assigns `Finished` to the `status` field of the first
element of the snapshot it received; reading the store's own array
afterwards shows the store-owned `Project` now has status `Finished` —
the snapshot was not a defensive (deep) copy, and a listener mutation
did change store-owned `Project` state. -/
theorem snapshot_not_defensive_counterexample :
    (m0.objs ((m0.arrs refS0.projectsRef).headD 0)).status = ProjectStatus.Active ∧
    mAfterWrite0.arrs refS0.projectsRef = m0.arrs refS0.projectsRef ∧
    (mAfterWrite0.objs ((mAfterWrite0.arrs refS0.projectsRef).headD 0)).status
        = ProjectStatus.Finished := by
  decide

/-- Witness for the amended C3 at the concrete memory `m0`: the snapshot
reference `1` handed to the listener differs from the store's array
reference, and the listener's write through the snapshot element sets the
store-reachable object's status. -/
theorem updateListeners_shallow_copy_witness :
    ((7, 1) : Nat × Nat).2 ≠ refS0.projectsRef ∧
    (updateListenersRef m0 refS0).1.arrs 1 = m0.arrs refS0.projectsRef ∧
    ((Mem.writeStatus (updateListenersRef m0 refS0).1 0
        ProjectStatus.Finished).objs 0).status = ProjectStatus.Finished :=
  have h := updateListeners_shallow_copy m0 refS0 (by decide)
  have h2 := h.2.2 (7, 1) (by decide)
  ⟨h2.1, h2.2.1, (h2.2.2.2 0 ProjectStatus.Finished (by decide)).2⟩

end DndApp
